import Mathlib

/-!
Verification of the bulk FHIR client and processing pipeline.

This file gives a shallow embedding, in Lean, of the core of the
`bulkfhir` and `processing` Go packages (bulkfhir/client.go): the
`JobStatus` polling call, the `MonitorJobStatus` polling loop, the
`ResourceType` wire-name mapping, the lazily dual-represented resource
wrapper, and the processor/sink pipeline.  External collaborators (the
HTTP transport, the JSON decoder, and the FHIR instant parser) are
modelled as injected inputs: an HTTP exchange is a value describing
either a transport failure or a received response, and the instant
parser is an arbitrary function argument.
-/

namespace Bulkfhir

/-- Errors produced by the client, mirroring the error values of
bulkfhir/client.go.  `unableToParseProgress`, `unauthorized`, `timeout`,
`unexpectedStatus` and `xProgressCount` mirror the package-level sentinel
errors; `atoiSyntax`/`atoiRange` mirror the errors of `strconv.Atoi`;
`bodyDecode` mirrors a JSON decoding failure; `instantParse` mirrors a
failure of `fhir.ParseFHIRInstant`; `unknownResourceType` mirrors the
error of `ResourceTypeFromAPI`; `unmappedResourceType` the error of
`ResourceType.ToAPI`. -/
inductive Err where
  | unauthorized
  | timeout
  | unexpectedStatus (code : Nat)
  | xProgressCount (n : Nat)
  | unableToParseProgress
  | atoiSyntax (s : String)
  | atoiRange (s : String)
  | bodyDecode (msg : String)
  | instantParse (msg : String)
  | unknownResourceType
  | unmappedResourceType
  | authFailure (msg : String)
deriving DecidableEq, Repr

/-- `ResourceType` is an integer enumeration in the source
(`type ResourceType int`). -/
abbrev ResourceType := Int

/-- `Patient ResourceType = iota` (0). -/
def Patient : ResourceType := 0

/-- `Coverage` (1). -/
def Coverage : ResourceType := 1

/-- `ExplanationOfBenefit` (2). -/
def ExplanationOfBenefit : ResourceType := 2

/-- `OperationOutcome` (3). -/
def OperationOutcome : ResourceType := 3

/-- `ResourceType.ToAPI` returns the string BCDA API representation of the
`ResourceType`, failing on any value outside the four declared constants. -/
def ResourceType.ToAPI (r : ResourceType) : Except Err String :=
  if r = Patient then Except.ok "Patient"
  else if r = Coverage then Except.ok "Coverage"
  else if r = ExplanationOfBenefit then Except.ok "ExplanationOfBenefit"
  else if r = OperationOutcome then Except.ok "OperationOutcome"
  else Except.error Err.unmappedResourceType

/-- `ResourceTypeFromAPI` converts the API string representation to the
internal enumerated representation, failing on any other string. -/
def ResourceTypeFromAPI (s : String) : Except Err ResourceType :=
  if s = "Patient" then Except.ok Patient
  else if s = "Coverage" then Except.ok Coverage
  else if s = "ExplanationOfBenefit" then Except.ok ExplanationOfBenefit
  else if s = "OperationOutcome" then Except.ok OperationOutcome
  else Except.error Err.unknownResourceType

/-- Whether a wire-format type name maps to an internal `ResourceType`. -/
def mapsToResourceType (s : String) : Bool :=
  match ResourceTypeFromAPI s with
  | Except.ok _ => true
  | Except.error _ => false

/-- The internal `ResourceType` a wire name maps to, if any. -/
def resourceTypeOf (s : String) : Option ResourceType :=
  (ResourceTypeFromAPI s).toOption

/-- The `JobStatus` struct of the source: completion flag, integer
percent-complete, per-type result URL lists (the Go `map[ResourceType][]string`
is modelled as a total function that is `[]` outside its domain, matching
Go map reads), and the transaction time (a `time.Time`, modelled as `Nat`). -/
structure JobStatus where
  isComplete : Bool
  percentComplete : Int
  resultURLs : ResourceType → List String
  transactionTime : Nat

/-- The zero value `JobStatus{}` of Go. -/
def JobStatus.zero : JobStatus :=
  { isComplete := false, percentComplete := 0, resultURLs := fun _ => [],
    transactionTime := 0 }

/-- One entry of the `output` array of a decoded job-status response body
(`jobStatusOutput`). -/
structure JobStatusOutputWire where
  resourceType : String
  url : String
deriving DecidableEq, Repr

/-- A decoded job-status response body (`jobStatusResponse`). -/
structure JobStatusResponseWire where
  output : List JobStatusOutputWire
  transactionTime : String
deriving DecidableEq, Repr

/-- The parts of an HTTP response that `Client.JobStatus` inspects: the
status code, the list of `X-Progress` header values, and the outcome of
JSON-decoding the body into a `jobStatusResponse` (the decoder is an
external collaborator, so its outcome is part of the input). -/
structure HttpResponse where
  statusCode : Nat
  xProgressValues : List String
  bodyDecode : Except String JobStatusResponseWire

/-- The outcome of `httpClient.Do`: either a transport-level failure (the
request could not be executed at all) or a received response. -/
inductive DoResult where
  | transportFailure (msg : String)
  | success (resp : HttpResponse)

/-- `digitRun cs` splits `cs` into its maximal leading run of ASCII digits
and the remainder. -/
def digitRun : List Char → List Char × List Char
  | [] => ([], [])
  | c :: rest =>
    if c.isDigit then
      let (ds, r) := digitRun rest
      (c :: ds, r)
    else ([], c :: rest)

/-- Scanning core of the progress pattern `\(([0-9]+?)%\)`: find the
leftmost `(` that is followed by one or more digits and then `%)`, and
return the captured digits.  (Because a digit run can only be terminated
by the literal `%`, the non-greedy quantifier admits exactly one candidate
capture per `(` — the maximal digit run.) -/
def progressCaptureAux : List Char → Option String
  | [] => none
  | c :: rest =>
    if c = '(' then
      match digitRun rest with
      | (d :: ds, '%' :: ')' :: _) => some (String.mk (d :: ds))
      | _ => progressCaptureAux rest
    else progressCaptureAux rest

/-- Model of `progressREGEX.FindStringSubmatch(s)` restricted to its use in
the source: `none` when there is no match, otherwise the first capture
group (the digits). -/
def progressCapture (s : String) : Option String :=
  progressCaptureAux s.toList

/-- `digitsToNat` reads a digit list as a decimal number. -/
def digitsToNat (cs : List Char) : Nat :=
  cs.foldl (fun n c => n * 10 + (c.toNat - '0'.toNat)) 0

/-- Model of `strconv.Atoi` on the inputs the client can pass it
(sign-less decimal strings, as produced by the progress capture group):
empty or non-digit input is a syntax error, a value exceeding the maximum
64-bit signed integer is a range error (Go's `int` is 64-bit on all
supported platforms). -/
def atoi (s : String) : Except Err Int :=
  let cs := s.toList
  if cs = [] then Except.error (Err.atoiSyntax s)
  else if cs.all Char.isDigit then
    if digitsToNat cs < 9223372036854775808 then Except.ok (Int.ofNat (digitsToNat cs))
    else Except.error (Err.atoiRange s)
  else Except.error (Err.atoiSyntax s)

/-- The accumulation loop of the 200 branch of `Client.JobStatus`: for each
output entry, map its wire type name (aborting the whole call on failure)
and append its URL to that type's list. -/
def jobStatusAccumulate :
    List JobStatusOutputWire → (ResourceType → List String) →
    Except Err (ResourceType → List String)
  | [], m => Except.ok m
  | item :: rest, m =>
    match ResourceTypeFromAPI item.resourceType with
    | Except.error e => Except.error e
    | Except.ok r =>
      jobStatusAccumulate rest
        (fun r2 => if r2 = r then m r ++ [item.url] else m r2)

/-- `Client.JobStatus`, as a function of the client's token, the injected
FHIR instant parser, and the outcome of the single HTTP exchange it
performs.  Mirrors the control flow of the source: empty token short
circuits to `Unauthorized`; a transport failure is swallowed (zero status,
nil error); 202 parses the single `X-Progress` header; 200 decodes the
body, maps the output entries and parses the transaction time; 401 is
`Unauthorized`; anything else is an unexpected status. -/
def clientJobStatus (token : String)
    (parseInstant : String → Except String Nat) (d : DoResult) :
    JobStatus × Option Err :=
  if token.length = 0 then (JobStatus.zero, some Err.unauthorized)
  else
    match d with
    | DoResult.transportFailure _ => (JobStatus.zero, none)
    | DoResult.success resp =>
      if resp.statusCode = 202 then
        match resp.xProgressValues with
        | [h] =>
          match progressCapture h with
          | none => (JobStatus.zero, some Err.unableToParseProgress)
          | some digits =>
            match atoi digits with
            | Except.error e => (JobStatus.zero, some e)
            | Except.ok n =>
              ({ JobStatus.zero with percentComplete := n }, none)
        | l => (JobStatus.zero, some (Err.xProgressCount l.length))
      else if resp.statusCode = 200 then
        match resp.bodyDecode with
        | Except.error msg =>
          ({ JobStatus.zero with isComplete := true }, some (Err.bodyDecode msg))
        | Except.ok jr =>
          match jobStatusAccumulate jr.output (fun _ => []) with
          | Except.error e => (JobStatus.zero, some e)
          | Except.ok m =>
            match parseInstant jr.transactionTime with
            | Except.error msg => (JobStatus.zero, some (Err.instantParse msg))
            | Except.ok t =>
              ({ isComplete := true, percentComplete := 0, resultURLs := m,
                 transactionTime := t }, none)
      else if resp.statusCode = 401 then (JobStatus.zero, some Err.unauthorized)
      else (JobStatus.zero, some (Err.unexpectedStatus resp.statusCode))

/-- A `MonitorResult` as emitted on the channel of `MonitorJobStatus`: the
source struct carries a `Status` and an `Error` field of which exactly one
is set per emission. -/
inductive MonitorResultM where
  | status (js : JobStatus)
  | error (e : Err)

/-- An observable action of the monitor goroutine: emitting a result on
the channel, sleeping for the check period, calling `Authenticate`, or
closing the channel. -/
inductive MAction where
  | emit (r : MonitorResultM)
  | sleep
  | authenticate
  | close

/-- The outcome of one call to `Client.JobStatus` as seen by the monitor
loop: the returned status value and the returned error (if any). -/
structure PollOutcome where
  status : JobStatus
  error : Option Err

/-- The poll outcome corresponding to a `clientJobStatus` result pair. -/
def pollOf (p : JobStatus × Option Err) : PollOutcome :=
  { status := p.1, error := p.2 }

/-- The actions of the re-authentication attempt inside the monitor loop:
an error event is emitted exactly when `Authenticate` fails. -/
def authEvents : Option Err → List MAction
  | some ae => [MAction.emit (MonitorResultM.error ae)]
  | none => []

/-- The goroutine body of `MonitorJobStatus` as a trace of actions.
`polls i` is the outcome of the `i`-th `JobStatus` call, `auth i` the
outcome of an `Authenticate` call made on iteration `i` (`none` =
success).  `fuel` is the number of loop iterations that begin before the
deadline passes, abstracting the wall clock: the loop runs while the
status is not complete and fuel remains; afterwards, a timeout error is
emitted if the job never completed, and the channel is closed. -/
def monitorGo (polls : Nat → PollOutcome) (auth : Nat → Option Err) :
    Nat → Nat → JobStatus → List MAction
  | 0, _, js =>
    if js.isComplete then [MAction.close]
    else [MAction.emit (MonitorResultM.error Err.timeout), MAction.close]
  | fuel + 1, i, js =>
    if js.isComplete then [MAction.close]
    else
      match (polls i).error with
      | some e =>
        if e = Err.unauthorized then
          MAction.authenticate ::
            (authEvents (auth i) ++ monitorGo polls auth fuel (i + 1) (polls i).status)
        else
          MAction.emit (MonitorResultM.error e) ::
            ((if (polls i).status.isComplete then [] else [MAction.sleep]) ++
              monitorGo polls auth fuel (i + 1) (polls i).status)
      | none =>
        MAction.emit (MonitorResultM.status (polls i).status) ::
          ((if (polls i).status.isComplete then [] else [MAction.sleep]) ++
            monitorGo polls auth fuel (i + 1) (polls i).status)

/-- A full run of the monitor goroutine, starting from the zero-value
`jobStatus` variable. -/
def monitorRun (polls : Nat → PollOutcome) (auth : Nat → Option Err)
    (fuel : Nat) : List MAction :=
  monitorGo polls auth fuel 0 JobStatus.zero

/-- The results emitted on the channel during a trace, in order. -/
def emittedEvents (tr : List MAction) : List MonitorResultM :=
  tr.filterMap fun a =>
    match a with
    | MAction.emit r => some r
    | _ => none

/-- A terminal event in the sense of the specification: a status event
carrying a complete `JobStatus`, or the timeout error event. -/
def isTerminalEvent : MonitorResultM → Bool
  | MonitorResultM.status js => js.isComplete
  | MonitorResultM.error e => decide (e = Err.timeout)

/-- The property asserted of the monitor's event stream: it ends with
exactly one terminal event, and no earlier event is terminal. -/
def eventsTerminatedOnce (evs : List MonitorResultM) : Prop :=
  ∃ pre t, evs = pre ++ [t] ∧ isTerminalEvent t = true ∧
    ∀ e ∈ pre, isTerminalEvent e = false

/-- An error event whose error was produced by a poll that also reported
the job complete (e.g. a 200 response whose body fails to decode): the
only way the monitor loop can exit right after an error event. -/
def finalErrorFromCompletedPoll (polls : Nat → PollOutcome)
    (t : MonitorResultM) : Prop :=
  ∃ i e, t = MonitorResultM.error e ∧ (polls i).error = some e ∧
    (polls i).status.isComplete = true

/-- The stream-termination property the code actually satisfies: the
stream ends with one final event that is either terminal (complete status
or timeout error) or an error event from a poll whose returned status was
already complete, and no earlier event is terminal. -/
def eventsTerminatedOnceAmended (polls : Nat → PollOutcome)
    (evs : List MonitorResultM) : Prop :=
  ∃ pre t, evs = pre ++ [t] ∧
    (isTerminalEvent t = true ∨ finalErrorFromCompletedPoll polls t) ∧
    ∀ e ∈ pre, isTerminalEvent e = false

end Bulkfhir

namespace Processing

/-- The `resourceWrapper` struct of the processing package.  `α` is the
structured form (`*rpb.ContainedResource`), `β` the wire bytes (`[]byte`);
both caches are optional (`nil`-able in Go).  The marshaller and
unmarshaller are external collaborators and are passed to the operations
as functions.  `resourceType` and `sourceURL` are fixed at construction. -/
structure ResourceWrapperState (α β : Type) where
  resourceType : Nat
  sourceURL : String
  proto : Option α
  json : Option β
  doneMutating : Bool

/-- `resourceWrapper.Proto()`: if no proto is cached, unmarshal it from
the cached JSON (returning the error without touching the caches on
failure); then, unless `doneMutating` is set, clear the JSON cache; return
the proto together with the updated wrapper state. -/
def rwProto {α β : Type} (unmarshal : Option β → Except String α)
    (rw : ResourceWrapperState α β) :
    Except String α × ResourceWrapperState α β :=
  match rw.proto with
  | none =>
    match unmarshal rw.json with
    | Except.error e => (Except.error e, rw)
    | Except.ok p =>
      if rw.doneMutating then (Except.ok p, { rw with proto := some p })
      else (Except.ok p, { rw with proto := some p, json := none })
  | some p =>
    if rw.doneMutating then (Except.ok p, rw)
    else (Except.ok p, { rw with json := none })

/-- `resourceWrapper.JSON()`: if no JSON is cached, marshal the proto and
cache the resulting bytes. -/
def rwJSON {α β : Type} (marshal : Option α → Except String β)
    (rw : ResourceWrapperState α β) :
    Except String β × ResourceWrapperState α β :=
  match rw.json with
  | some j => (Except.ok j, rw)
  | none =>
    match marshal rw.proto with
    | Except.error e => (Except.error e, rw)
    | Except.ok j => (Except.ok j, { rw with json := some j })

/-- Observable events of a pipeline run: a processor's `Process` being
invoked, a sink's `Write` being invoked, or a stage's `Finalize` being
invoked (identified by stage id). -/
inductive PipeEv where
  | procCall (id : Nat)
  | sinkWrite (id : Nat)
  | finalized (id : Nat)
deriving DecidableEq, Repr

/-- Model of a pipeline `Sink`: an id (for the event trace), its `Write`
behaviour on a wrapper, and the outcome of its `Finalize`. -/
structure SinkModel (α β : Type) where
  id : Nat
  write : ResourceWrapperState α β → Except String Unit
  fin : Except String Unit

/-- Model of a pipeline `Processor` that forwards to the output function
wired at construction: an id, the transformation it applies to the
resource before forwarding (an error aborts processing of the resource),
and the outcome of its `Finalize`. -/
structure ProcModel (α β : Type) where
  id : Nat
  transform : ResourceWrapperState α β → Except String (ResourceWrapperState α β)
  fin : Except String Unit

/-- The sink loop of `Pipeline.writeToSinks`: write the resource to each
sink sequentially, stopping at the first error. -/
def writeSeq {α β : Type} :
    List (SinkModel α β) → ResourceWrapperState α β →
    List PipeEv × Except String Unit
  | [], _ => ([], Except.ok ())
  | s :: rest, rw =>
    match s.write rw with
    | Except.error e => ([PipeEv.sinkWrite s.id], Except.error e)
    | Except.ok _ =>
      let (t, r) := writeSeq rest rw
      (PipeEv.sinkWrite s.id :: t, r)

/-- `Pipeline.writeToSinks`: set `doneMutating` on the wrapper, then write
it to each sink sequentially. -/
def writeToSinks {α β : Type} (sinks : List (SinkModel α β))
    (rw : ResourceWrapperState α β) : List PipeEv × Except String Unit :=
  writeSeq sinks { rw with doneMutating := true }

/-- One processor stage wrapped around a continuation, mirroring
`processors[i].SetOutput(f); f = processors[i].Process`: invoking the
processor records its event, applies its transformation, and on success
passes the result to the output function it was wired to. -/
def procRun {α β : Type} (pr : ProcModel α β)
    (out : ResourceWrapperState α β → List PipeEv × Except String Unit)
    (rw : ResourceWrapperState α β) : List PipeEv × Except String Unit :=
  match pr.transform rw with
  | Except.error e => ([PipeEv.procCall pr.id], Except.error e)
  | Except.ok rw2 =>
    let (t, r) := out rw2
    (PipeEv.procCall pr.id :: t, r)

/-- The composed `pipelineFunc` built by `NewPipeline`: starting from
`writeToSinks`, each processor is layered on from the last to the first,
so that processors execute in the order supplied.  (The source's downward
loop is exactly a right fold.) -/
def pipelineFunc {α β : Type} (procs : List (ProcModel α β))
    (sinks : List (SinkModel α β)) :
    ResourceWrapperState α β → List PipeEv × Except String Unit :=
  procs.foldr procRun (writeToSinks sinks)

/-- `Pipeline.Process`: wrap the input in a fresh resource wrapper and
invoke the composed pipeline function. -/
def pipelineProcess {α β : Type} (procs : List (ProcModel α β))
    (sinks : List (SinkModel α β)) (rt : Nat) (srcURL : String) (json : β) :
    List PipeEv × Except String Unit :=
  pipelineFunc procs sinks
    { resourceType := rt, sourceURL := srcURL, proto := none,
      json := some json, doneMutating := false }

/-- The result of threading a resource through a processor list's
transformations in order (the value the sink stage would receive). -/
def threadProcs {α β : Type} :
    List (ProcModel α β) → ResourceWrapperState α β →
    Except String (ResourceWrapperState α β)
  | [], rw => Except.ok rw
  | pr :: rest, rw =>
    match pr.transform rw with
    | Except.error e => Except.error e
    | Except.ok rw2 => threadProcs rest rw2

/-- A finalize sweep over a list of (stage id, finalize outcome) pairs:
call each finalizer in order, stopping at the first error. -/
def finalizeSeq : List (Nat × Except String Unit) →
    List PipeEv × Except String Unit
  | [] => ([], Except.ok ())
  | (i, r) :: rest =>
    match r with
    | Except.error e => ([PipeEv.finalized i], Except.error e)
    | Except.ok _ =>
      let (t, res) := finalizeSeq rest
      (PipeEv.finalized i :: t, res)

/-- `Pipeline.Finalize`: finalize every processor in list order, then
every sink in list order, returning the first error seen (a failing
processor finalizer prevents all sink finalizers from running). -/
def pipelineFinalize {α β : Type} (procs : List (ProcModel α β))
    (sinks : List (SinkModel α β)) : List PipeEv × Except String Unit :=
  let (t1, r1) := finalizeSeq (procs.map fun p => (p.id, p.fin))
  match r1 with
  | Except.error e => (t1, Except.error e)
  | Except.ok _ =>
    let (t2, r2) := finalizeSeq (sinks.map fun s => (s.id, s.fin))
    (t1 ++ t2, r2)

end Processing

namespace Bulkfhir

lemma resourceTypeFromAPI_error_eq (s : String) (e : Err)
    (h : ResourceTypeFromAPI s = Except.error e) : e = Err.unknownResourceType := by
  unfold ResourceTypeFromAPI at h
  split_ifs at h
  all_goals simp_all

/-- Claim C1: if executing the HTTP request of a status poll fails at the
transport level, `Client.JobStatus` discards the failure and returns the
zero-value `JobStatus` with a nil error instead of the transport error. -/
theorem jobStatus_transport_failure_discarded (token : String)
    (htok : token.length ≠ 0) (parseInstant : String → Except String Nat)
    (msg : String) :
    clientJobStatus token parseInstant (DoResult.transportFailure msg)
      = (JobStatus.zero, none) := by
  unfold clientJobStatus
  rw [if_neg htok]

/-- Witness for C1 at a concrete token and transport error. -/
theorem jobStatus_transport_failure_discarded_witness :
    ("tok".length ≠ 0) ∧
    clientJobStatus "tok" (fun s => Except.error s)
        (DoResult.transportFailure "connection refused")
      = (JobStatus.zero, none) :=
  ⟨by decide,
   jobStatus_transport_failure_discarded "tok" (by decide)
     (fun s => Except.error s) "connection refused"⟩

/-- Claim C10: each of the four declared `ResourceType` constants round
trips through `ToAPI` and `ResourceTypeFromAPI`, and any string other than
the four wire names fails to map. -/
theorem resourceType_roundtrip :
    (∀ r : ResourceType,
        r = Patient ∨ r = Coverage ∨ r = ExplanationOfBenefit ∨
          r = OperationOutcome →
        ∃ s, ResourceType.ToAPI r = Except.ok s ∧
          ResourceTypeFromAPI s = Except.ok r)
    ∧ (∀ s : String, s ≠ "Patient" → s ≠ "Coverage" →
        s ≠ "ExplanationOfBenefit" → s ≠ "OperationOutcome" →
        ResourceTypeFromAPI s = Except.error Err.unknownResourceType) := by
  constructor
  · rintro r (rfl | rfl | rfl | rfl)
    · exact ⟨"Patient", rfl, rfl⟩
    · exact ⟨"Coverage", rfl, rfl⟩
    · exact ⟨"ExplanationOfBenefit", rfl, rfl⟩
    · exact ⟨"OperationOutcome", rfl, rfl⟩
  · intro s h1 h2 h3 h4
    unfold ResourceTypeFromAPI
    rw [if_neg h1, if_neg h2, if_neg h3, if_neg h4]

/-- Witness for C10: the Patient round trip and a failing unknown name. -/
theorem resourceType_roundtrip_witness :
    (∃ s, ResourceType.ToAPI Patient = Except.ok s ∧
      ResourceTypeFromAPI s = Except.ok Patient)
    ∧ ResourceTypeFromAPI "Medication" = Except.error Err.unknownResourceType :=
  ⟨resourceType_roundtrip.1 Patient (Or.inl rfl),
   resourceType_roundtrip.2 "Medication" (by decide) (by decide) (by decide)
     (by decide)⟩

end Bulkfhir

namespace Bulkfhir

/-- Claim C6 (amended): on a 202 job-status response, a header count other
than one fails with the header-count error; a single header that does not
match the pattern fails with the progress-parse error; a single header
whose matched digits fail to parse fails with the `Atoi` error itself (not
the progress-parse error); otherwise the parsed percentage is returned
with `complete = false`. -/
theorem jobStatus_pending_progress (token : String) (htok : token.length ≠ 0)
    (parseInstant : String → Except String Nat) (resp : HttpResponse)
    (hsc : resp.statusCode = 202) :
    (resp.xProgressValues.length ≠ 1 →
      clientJobStatus token parseInstant (DoResult.success resp)
        = (JobStatus.zero, some (Err.xProgressCount resp.xProgressValues.length)))
    ∧ (∀ h, resp.xProgressValues = [h] → progressCapture h = none →
      clientJobStatus token parseInstant (DoResult.success resp)
        = (JobStatus.zero, some Err.unableToParseProgress))
    ∧ (∀ h ds e, resp.xProgressValues = [h] → progressCapture h = some ds →
      atoi ds = Except.error e →
      clientJobStatus token parseInstant (DoResult.success resp)
        = (JobStatus.zero, some e))
    ∧ (∀ h ds n, resp.xProgressValues = [h] → progressCapture h = some ds →
      atoi ds = Except.ok n →
      clientJobStatus token parseInstant (DoResult.success resp)
        = ({ JobStatus.zero with percentComplete := n }, none)) := by
  refine ⟨?_, ?_, ?_, ?_⟩
  · intro hlen
    unfold clientJobStatus
    rw [if_neg htok]
    simp only [hsc, if_pos rfl]
    match hl : resp.xProgressValues with
    | [] => simp
    | [h] => rw [hl] at hlen; simp at hlen
    | a :: b :: t => simp
  · intro h hl hcap
    unfold clientJobStatus
    rw [if_neg htok]
    simp [hsc, hl, hcap]
  · intro h ds e hl hcap hatoi
    unfold clientJobStatus
    rw [if_neg htok]
    simp [hsc, hl, hcap, hatoi]
  · intro h ds n hl hcap hatoi
    unfold clientJobStatus
    rw [if_neg htok]
    simp [hsc, hl, hcap, hatoi]

/-- Witness for C6 (amended), at the specification's example header
"Retrieval is 50% complete (50%)": the parsed percentage is 50. -/
theorem jobStatus_pending_progress_witness :
    ("tok".length ≠ 0) ∧ (202 : Nat) = 202 ∧
    progressCapture "Retrieval is 50% complete (50%)" = some "50" ∧
    atoi "50" = Except.ok 50 ∧
    clientJobStatus "tok" (fun s => Except.error s)
        (DoResult.success
          { statusCode := 202,
            xProgressValues := ["Retrieval is 50% complete (50%)"],
            bodyDecode := Except.error "unused" })
      = ({ JobStatus.zero with percentComplete := 50 }, none) :=
  ⟨by decide, rfl, rfl, rfl,
   (jobStatus_pending_progress "tok" (by decide) (fun s => Except.error s)
      { statusCode := 202,
        xProgressValues := ["Retrieval is 50% complete (50%)"],
        bodyDecode := Except.error "unused" } rfl).2.2.2
     "Retrieval is 50% complete (50%)" "50" 50 rfl rfl rfl⟩

/-- Counterexample to claim C6 as stated: a single `X-Progress` header
whose captured digits overflow a 64-bit integer makes the call fail with
the `Atoi` range error, which is a different error from the
progress-parse failure the claim names. -/
theorem jobStatus_pending_progress_counterexample :
    (clientJobStatus "tok" (fun s => Except.error s)
        (DoResult.success
          { statusCode := 202,
            xProgressValues := ["(99999999999999999999%)"],
            bodyDecode := Except.error "unused" })).2
      = some (Err.atoiRange "99999999999999999999")
    ∧ Err.atoiRange "99999999999999999999" ≠ Err.unableToParseProgress :=
  ⟨rfl, by decide⟩

end Bulkfhir

namespace Bulkfhir

lemma jobStatusAccumulate_error (l : List JobStatusOutputWire) :
    ∀ m : ResourceType → List String,
      (∃ item ∈ l, mapsToResourceType item.resourceType = false) →
      jobStatusAccumulate l m = Except.error Err.unknownResourceType := by
  induction l with
  | nil => intro m h; simp at h
  | cons a rest ih =>
    intro m h
    unfold jobStatusAccumulate
    cases hra : ResourceTypeFromAPI a.resourceType with
    | error e => rw [resourceTypeFromAPI_error_eq _ _ hra]
    | ok r =>
      apply ih
      rcases h with ⟨item, hmem, hfail⟩
      rcases List.mem_cons.mp hmem with heq | hmem2
      · exfalso
        unfold mapsToResourceType at hfail
        rw [heq, hra] at hfail
        simp at hfail
      · exact ⟨item, hmem2, hfail⟩

lemma jobStatusAccumulate_ok (l : List JobStatusOutputWire) :
    ∀ m : ResourceType → List String,
      (∀ item ∈ l, mapsToResourceType item.resourceType = true) →
      ∃ m2, jobStatusAccumulate l m = Except.ok m2 ∧
        ∀ r, m2 r = m r ++
          (l.filter fun item =>
            decide (resourceTypeOf item.resourceType = some r)).map
            (fun item => item.url) := by
  induction l with
  | nil => intro m _; exact ⟨m, rfl, by simp⟩
  | cons a rest ih =>
    intro m h
    have ha := h a (List.mem_cons_self a rest)
    cases hra : ResourceTypeFromAPI a.resourceType with
    | error e =>
      exfalso
      unfold mapsToResourceType at ha
      rw [hra] at ha
      simp at ha
    | ok r0 =>
      obtain ⟨m2, hacc, hchar⟩ :=
        ih (fun r2 => if r2 = r0 then m r0 ++ [a.url] else m r2)
          (fun item hm => h item (List.mem_cons_of_mem a hm))
      refine ⟨m2, ?_, ?_⟩
      · unfold jobStatusAccumulate
        rw [hra]
        exact hacc
      · intro r
        rw [hchar r]
        have hro : resourceTypeOf a.resourceType = some r0 := by
          unfold resourceTypeOf
          rw [hra]
          rfl
        by_cases hr : r = r0
        · subst hr
          rw [List.filter_cons_of_pos (by simp [hro]), if_pos rfl]
          simp
        · rw [List.filter_cons_of_neg (by simp [hro, Ne.symm hr]),
            if_neg (fun hh => hr hh)]

/-- Claim C5: on a 200 job-status response with a decodable body, a single
unmappable output type name aborts the whole call with the
unknown-resource-type error; otherwise the call succeeds with
`complete = true`, the parsed transaction time, and the result URLs
grouped by resource type in the server's per-type order. -/
theorem jobStatus_complete_resource_mapping (token : String)
    (htok : token.length ≠ 0) (parseInstant : String → Except String Nat)
    (resp : HttpResponse) (hsc : resp.statusCode = 200)
    (jr : JobStatusResponseWire) (hbody : resp.bodyDecode = Except.ok jr) :
    ((∃ item ∈ jr.output, mapsToResourceType item.resourceType = false) →
      clientJobStatus token parseInstant (DoResult.success resp)
        = (JobStatus.zero, some Err.unknownResourceType))
    ∧ (∀ t : Nat, (∀ item ∈ jr.output, mapsToResourceType item.resourceType = true) →
        parseInstant jr.transactionTime = Except.ok t →
        (clientJobStatus token parseInstant (DoResult.success resp)).2 = none ∧
        (clientJobStatus token parseInstant (DoResult.success resp)).1.isComplete
          = true ∧
        (clientJobStatus token parseInstant (DoResult.success resp)).1.transactionTime
          = t ∧
        ∀ r : ResourceType,
          (clientJobStatus token parseInstant (DoResult.success resp)).1.resultURLs r
            = (jr.output.filter fun item =>
                decide (resourceTypeOf item.resourceType = some r)).map
                (fun item => item.url)) := by
  constructor
  · intro hex
    unfold clientJobStatus
    rw [if_neg htok]
    simp [hsc, hbody, jobStatusAccumulate_error jr.output (fun _ => []) hex]
  · intro t hall hinst
    obtain ⟨m2, hacc, hchar⟩ := jobStatusAccumulate_ok jr.output (fun _ => []) hall
    have hres : clientJobStatus token parseInstant (DoResult.success resp)
        = ({ isComplete := true, percentComplete := 0, resultURLs := m2,
             transactionTime := t }, none) := by
      unfold clientJobStatus
      rw [if_neg htok]
      simp [hsc, hbody, hacc, hinst]
    rw [hres]
    refine ⟨rfl, rfl, rfl, ?_⟩
    intro r
    have := hchar r
    simpa using this

end Bulkfhir

namespace Bulkfhir

/-- The 200 response body of the specification's example:
output Patient→u1, Patient→u2 and transaction time 2021-01-01T00:00:00Z. -/
def exampleBody : JobStatusResponseWire :=
  { output := [{ resourceType := "Patient", url := "u1" },
               { resourceType := "Patient", url := "u2" }],
    transactionTime := "2021-01-01T00:00:00Z" }

/-- The instant parser used in witnesses, mapping the example timestamp to
the epoch seconds 1609459200. -/
def exampleInstantFn (s : String) : Except String Nat :=
  if s = "2021-01-01T00:00:00Z" then Except.ok 1609459200 else Except.error s

/-- Witness for C5 at the specification's example body: the call succeeds,
is complete, carries the parsed timestamp, and maps Patient to
["u1", "u2"] in that order. -/
theorem jobStatus_complete_resource_mapping_witness :
    ("tok".length ≠ 0) ∧
    (∀ item ∈ exampleBody.output, mapsToResourceType item.resourceType = true) ∧
    exampleInstantFn exampleBody.transactionTime = Except.ok 1609459200 ∧
    (clientJobStatus "tok" exampleInstantFn
        (DoResult.success
          { statusCode := 200, xProgressValues := [],
            bodyDecode := Except.ok exampleBody })).2 = none ∧
    (clientJobStatus "tok" exampleInstantFn
        (DoResult.success
          { statusCode := 200, xProgressValues := [],
            bodyDecode := Except.ok exampleBody })).1.isComplete = true ∧
    (clientJobStatus "tok" exampleInstantFn
        (DoResult.success
          { statusCode := 200, xProgressValues := [],
            bodyDecode := Except.ok exampleBody })).1.transactionTime
      = 1609459200 ∧
    (clientJobStatus "tok" exampleInstantFn
        (DoResult.success
          { statusCode := 200, xProgressValues := [],
            bodyDecode := Except.ok exampleBody })).1.resultURLs Patient
      = ["u1", "u2"] := by
  have h := (jobStatus_complete_resource_mapping "tok" (by decide)
      exampleInstantFn
      { statusCode := 200, xProgressValues := [],
        bodyDecode := Except.ok exampleBody } rfl exampleBody rfl).2
      1609459200 (by decide) rfl
  exact ⟨by decide, by decide, rfl, h.1, h.2.1, h.2.2.1,
    (h.2.2.2 Patient).trans rfl⟩

end Bulkfhir

namespace Bulkfhir

lemma emittedEvents_nil : emittedEvents [] = [] := rfl

lemma emittedEvents_cons_emit (r : MonitorResultM) (tr : List MAction) :
    emittedEvents (MAction.emit r :: tr) = r :: emittedEvents tr := rfl

lemma emittedEvents_cons_sleep (tr : List MAction) :
    emittedEvents (MAction.sleep :: tr) = emittedEvents tr := rfl

lemma emittedEvents_cons_auth (tr : List MAction) :
    emittedEvents (MAction.authenticate :: tr) = emittedEvents tr := rfl

lemma emittedEvents_cons_close (tr : List MAction) :
    emittedEvents (MAction.close :: tr) = emittedEvents tr := rfl

lemma emittedEvents_append (a b : List MAction) :
    emittedEvents (a ++ b) = emittedEvents a ++ emittedEvents b :=
  List.filterMap_append a b _

lemma monitorGo_complete (polls : Nat → PollOutcome) (auth : Nat → Option Err)
    (fuel i : Nat) (js : JobStatus) (h : js.isComplete = true) :
    monitorGo polls auth fuel i js = [MAction.close] := by
  cases fuel with
  | zero => simp [monitorGo, h]
  | succ n => simp [monitorGo, h]

lemma monitorGo_close_last (polls : Nat → PollOutcome) (auth : Nat → Option Err) :
    ∀ fuel i js, ∃ tr, monitorGo polls auth fuel i js = tr ++ [MAction.close]
      ∧ MAction.close ∉ tr := by
  intro fuel
  induction fuel with
  | zero =>
    intro i js
    cases hjs : js.isComplete
    · exact ⟨[MAction.emit (MonitorResultM.error Err.timeout)],
        by simp [monitorGo, hjs], by simp⟩
    · exact ⟨[], by simp [monitorGo, hjs], by simp⟩
  | succ n ih =>
    intro i js
    cases hjs : js.isComplete
    case true => exact ⟨[], by simp [monitorGo, hjs], by simp⟩
    case false =>
      obtain ⟨tr, htr, hmem⟩ := ih (i + 1) (polls i).status
      cases hpe : (polls i).error with
      | none =>
        refine ⟨MAction.emit (MonitorResultM.status (polls i).status) ::
          ((if (polls i).status.isComplete then [] else [MAction.sleep]) ++ tr),
          ?_, ?_⟩
        · simp [monitorGo, hjs, hpe, htr]
        · cases hc : (polls i).status.isComplete <;> simp [hmem]
      | some e =>
        by_cases heq : e = Err.unauthorized
        · subst heq
          refine ⟨MAction.authenticate :: (authEvents (auth i) ++ tr), ?_, ?_⟩
          · simp [monitorGo, hjs, hpe, htr]
          · cases hai : auth i <;> simp [authEvents, hmem]
        · refine ⟨MAction.emit (MonitorResultM.error e) ::
            ((if (polls i).status.isComplete then [] else [MAction.sleep]) ++ tr),
            ?_, ?_⟩
          · simp [monitorGo, hjs, hpe, heq, htr]
          · cases hc : (polls i).status.isComplete <;> simp [hmem]

lemma monitorGo_events_shape (polls : Nat → PollOutcome) (auth : Nat → Option Err)
    (hua : ∀ i, (polls i).error = some Err.unauthorized →
      (polls i).status.isComplete = false)
    (hpt : ∀ i, (polls i).error ≠ some Err.timeout)
    (hat : ∀ i, auth i ≠ some Err.timeout) :
    ∀ fuel i js, js.isComplete = false →
      ∃ pre t, emittedEvents (monitorGo polls auth fuel i js) = pre ++ [t] ∧
        (isTerminalEvent t = true ∨ finalErrorFromCompletedPoll polls t) ∧
        ∀ e ∈ pre, isTerminalEvent e = false := by
  intro fuel
  induction fuel with
  | zero =>
    intro i js hjs
    refine ⟨[], MonitorResultM.error Err.timeout, ?_, Or.inl rfl, by simp⟩
    simp [monitorGo, hjs, emittedEvents]
  | succ n ih =>
    intro i js hjs
    cases hpe : (polls i).error with
    | none =>
      cases hc : (polls i).status.isComplete
      case false =>
        obtain ⟨pre, t, hev, hterm, hpre⟩ := ih (i + 1) (polls i).status hc
        refine ⟨MonitorResultM.status (polls i).status :: pre, t, ?_, hterm, ?_⟩
        · simp [monitorGo, hjs, hpe, hc, emittedEvents_cons_emit,
            emittedEvents_cons_sleep, emittedEvents_append, hev]
        · intro e he
          rcases List.mem_cons.mp he with heq2 | hm
          · rw [heq2]; simp [isTerminalEvent, hc]
          · exact hpre e hm
      case true =>
        refine ⟨[], MonitorResultM.status (polls i).status, ?_,
          Or.inl (by simp [isTerminalEvent, hc]), by simp⟩
        rw [show monitorGo polls auth (n + 1) i js
            = MAction.emit (MonitorResultM.status (polls i).status) ::
              (([] : List MAction) ++ monitorGo polls auth n (i + 1) (polls i).status)
          from by simp [monitorGo, hjs, hpe, hc]]
        rw [monitorGo_complete polls auth n (i + 1) _ hc]
        rfl
    | some e =>
      by_cases heq : e = Err.unauthorized
      · subst heq
        have hc := hua i hpe
        obtain ⟨pre, t, hev, hterm, hpre⟩ := ih (i + 1) (polls i).status hc
        cases hai : auth i with
        | none =>
          refine ⟨pre, t, ?_, hterm, hpre⟩
          simp [monitorGo, hjs, hpe, hai, authEvents, emittedEvents_append,
            emittedEvents_cons_auth, hev]
        | some ae =>
          refine ⟨MonitorResultM.error ae :: pre, t, ?_, hterm, ?_⟩
          · simp [monitorGo, hjs, hpe, hai, authEvents, emittedEvents_append,
              emittedEvents_cons_auth, emittedEvents_cons_emit, hev]
          · intro ev hm
            rcases List.mem_cons.mp hm with heq2 | hm2
            · have hne : ae ≠ Err.timeout := by
                intro hh
                exact hat i (by rw [hai, hh])
              rw [heq2]
              simp [isTerminalEvent, hne]
            · exact hpre ev hm2
      · cases hc : (polls i).status.isComplete with
        | true =>
          refine ⟨[], MonitorResultM.error e, ?_,
            Or.inr ⟨i, e, rfl, hpe, hc⟩, by simp⟩
          rw [show monitorGo polls auth (n + 1) i js
              = MAction.emit (MonitorResultM.error e) ::
                (([] : List MAction) ++ monitorGo polls auth n (i + 1) (polls i).status)
            from by simp [monitorGo, hjs, hpe, heq, hc]]
          rw [monitorGo_complete polls auth n (i + 1) _ hc]
          rfl
        | false =>
          obtain ⟨pre, t, hev, hterm, hpre⟩ := ih (i + 1) (polls i).status hc
          refine ⟨MonitorResultM.error e :: pre, t, ?_, hterm, ?_⟩
          · simp [monitorGo, hjs, hpe, heq, hc, emittedEvents_cons_emit,
              emittedEvents_cons_sleep, emittedEvents_append, hev]
          · intro ev hm
            rcases List.mem_cons.mp hm with heq2 | hm2
            · have hne : e ≠ Err.timeout := by
                intro hh
                exact hpt i (by rw [hpe, hh])
              rw [heq2]
              simp [isTerminalEvent, hne]
            · exact hpre ev hm2

end Bulkfhir

namespace Bulkfhir

/-- The event stream of a concrete monitor run in which the single poll
hits a 200 response whose body fails to JSON-decode: `JobStatus` returns
an error together with a status whose completion flag is set, so the loop
emits one (non-terminal, non-timeout) error event and exits. -/
def decodeFailureEvents : List MonitorResultM :=
  emittedEvents (monitorRun
    (fun _ => pollOf (clientJobStatus "tok" (fun s => Except.error s)
      (DoResult.success
        { statusCode := 200, xProgressValues := [],
          bodyDecode := Except.error "bad body" })))
    (fun _ => none) 1)

/-- Counterexample to claim C2 as stated: in the decode-failure run the
stream is terminated by a plain error event — neither a final complete
status event nor the timeout error — so the stream is not terminated by a
terminal event. -/
theorem monitor_terminal_counterexample : ¬ eventsTerminatedOnce decodeFailureEvents := by
  intro h
  obtain ⟨pre, t, heq, hterm, hpre⟩ := h
  rw [show decodeFailureEvents
      = [MonitorResultM.error (Err.bodyDecode "bad body")] from rfl] at heq
  cases pre with
  | nil =>
    have ht : MonitorResultM.error (Err.bodyDecode "bad body") = t := by
      simpa using heq
    rw [← ht] at hterm
    simp [isTerminalEvent] at hterm
  | cons a l =>
    have := congrArg List.length heq
    simp at this

/-- Claim C2 (amended): provided each poll returning the `Unauthorized`
sentinel carries a non-complete status, no poll and no authentication
attempt returns the monitor's own timeout sentinel (all of which hold for
the real `JobStatus` and `Authenticate`), every monitor run's event stream
ends with exactly one final event that is a complete status, the timeout
error, or an error event produced by a poll whose returned status was
already complete (so an error on an incomplete poll is never final);
no earlier event is terminal; and the channel is closed exactly once, at
the very end of the trace, with nothing emitted afterwards. -/
theorem monitor_stream_termination (polls : Nat → PollOutcome)
    (auth : Nat → Option Err) (fuel : Nat)
    (hua : ∀ i, (polls i).error = some Err.unauthorized →
      (polls i).status.isComplete = false)
    (hpt : ∀ i, (polls i).error ≠ some Err.timeout)
    (hat : ∀ i, auth i ≠ some Err.timeout) :
    eventsTerminatedOnceAmended polls (emittedEvents (monitorRun polls auth fuel)) ∧
    ∃ tr, monitorRun polls auth fuel = tr ++ [MAction.close] ∧
      MAction.close ∉ tr := by
  constructor
  · exact monitorGo_events_shape polls auth hua hpt hat fuel 0 JobStatus.zero rfl
  · exact monitorGo_close_last polls auth fuel 0 JobStatus.zero

/-- Witness for C2 (amended): a run whose polls always return a pending
status, so the stream ends with the timeout error. -/
theorem monitor_stream_termination_witness :
    (∀ i, ((fun _ : Nat => PollOutcome.mk JobStatus.zero none) i).error
        = some Err.unauthorized →
      ((fun _ : Nat => PollOutcome.mk JobStatus.zero none) i).status.isComplete
        = false) ∧
    eventsTerminatedOnceAmended (fun _ => PollOutcome.mk JobStatus.zero none)
      (emittedEvents
        (monitorRun (fun _ => PollOutcome.mk JobStatus.zero none)
          (fun _ => none) 2)) ∧
    ∃ tr, monitorRun (fun _ => PollOutcome.mk JobStatus.zero none)
        (fun _ => none) 2 = tr ++ [MAction.close] ∧ MAction.close ∉ tr := by
  have h := monitor_stream_termination
    (fun _ => PollOutcome.mk JobStatus.zero none) (fun _ => none) 2
    (fun _ hh => by simp at hh) (fun _ hh => by simp at hh)
    (fun _ hh => by simp at hh)
  exact ⟨fun _ hh => by simp at hh, h.1, h.2⟩

/-- Claim C3: a 200 job-status response whose body fails to decode makes
`JobStatus` return a non-nil error paired with a status whose completion
flag is true, and a monitor run polling such an outcome emits that single
error event and immediately exits (emitting no further event before the
channel closes). -/
theorem jobStatus_decode_error_completes_monitor (token : String)
    (htok : token.length ≠ 0) (parseInstant : String → Except String Nat)
    (resp : HttpResponse) (hsc : resp.statusCode = 200)
    (msg : String) (hbody : resp.bodyDecode = Except.error msg)
    (auth : Nat → Option Err) (fuel : Nat) :
    (clientJobStatus token parseInstant (DoResult.success resp)).1.isComplete
      = true
    ∧ (clientJobStatus token parseInstant (DoResult.success resp)).2
      = some (Err.bodyDecode msg)
    ∧ monitorGo
        (fun _ => pollOf (clientJobStatus token parseInstant (DoResult.success resp)))
        auth (fuel + 1) 0 JobStatus.zero
      = [MAction.emit (MonitorResultM.error (Err.bodyDecode msg)), MAction.close] := by
  have hres : clientJobStatus token parseInstant (DoResult.success resp)
      = ({ JobStatus.zero with isComplete := true }, some (Err.bodyDecode msg)) := by
    unfold clientJobStatus
    rw [if_neg htok]
    simp [hsc, hbody]
  refine ⟨by rw [hres], by rw [hres], ?_⟩
  rw [show (fun _ : Nat => pollOf
        (clientJobStatus token parseInstant (DoResult.success resp)))
      = fun _ => pollOf ({ JobStatus.zero with isComplete := true },
          some (Err.bodyDecode msg)) from by rw [hres]]
  rw [show monitorGo
        (fun _ => pollOf ({ JobStatus.zero with isComplete := true },
          some (Err.bodyDecode msg))) auth (fuel + 1) 0 JobStatus.zero
      = MAction.emit (MonitorResultM.error (Err.bodyDecode msg)) ::
        (([] : List MAction) ++ monitorGo
          (fun _ => pollOf ({ JobStatus.zero with isComplete := true },
            some (Err.bodyDecode msg))) auth fuel 1
          { JobStatus.zero with isComplete := true })
    from by simp [monitorGo, pollOf, JobStatus.zero]]
  rw [monitorGo_complete _ auth fuel 1 _ rfl]
  rfl

/-- Witness for C3 at a concrete decode failure. -/
theorem jobStatus_decode_error_completes_monitor_witness :
    ("tok".length ≠ 0) ∧
    (clientJobStatus "tok" exampleInstantFn
      (DoResult.success
        { statusCode := 200, xProgressValues := [],
          bodyDecode := Except.error "bad body" })).1.isComplete = true ∧
    (clientJobStatus "tok" exampleInstantFn
      (DoResult.success
        { statusCode := 200, xProgressValues := [],
          bodyDecode := Except.error "bad body" })).2
      = some (Err.bodyDecode "bad body") ∧
    monitorGo
      (fun _ => pollOf (clientJobStatus "tok" exampleInstantFn
        (DoResult.success
          { statusCode := 200, xProgressValues := [],
            bodyDecode := Except.error "bad body" })))
      (fun _ => none) 1 0 JobStatus.zero
      = [MAction.emit (MonitorResultM.error (Err.bodyDecode "bad body")),
         MAction.close] := by
  have h := jobStatus_decode_error_completes_monitor "tok" (by decide)
    exampleInstantFn
    { statusCode := 200, xProgressValues := [],
      bodyDecode := Except.error "bad body" } rfl "bad body" rfl
    (fun _ => none) 0
  exact ⟨by decide, h.1, h.2.1, h.2.2⟩

/-- Claim C4: when a poll inside the monitor loop fails with the
`Unauthorized` sentinel, the iteration consists of an `Authenticate` call
followed by an error event exactly when that re-authentication fails; no
event is emitted for the 401 itself when re-authentication succeeds, the
iteration never sleeps, and the loop proceeds directly to the next status
call. -/
theorem monitor_unauthorized_reauthenticates (polls : Nat → PollOutcome)
    (auth : Nat → Option Err) (fuel i : Nat) (js : JobStatus)
    (hjs : js.isComplete = false)
    (hpe : (polls i).error = some Err.unauthorized) :
    monitorGo polls auth (fuel + 1) i js
      = MAction.authenticate ::
          (authEvents (auth i) ++ monitorGo polls auth fuel (i + 1) (polls i).status)
    ∧ MAction.sleep ∉ MAction.authenticate :: authEvents (auth i)
    ∧ (auth i = none → authEvents (auth i) = [])
    ∧ (∀ ae, auth i = some ae →
        authEvents (auth i) = [MAction.emit (MonitorResultM.error ae)])
    ∧ (∀ r, MAction.emit r ∈ authEvents (auth i) →
        ∃ ae, auth i = some ae ∧ r = MonitorResultM.error ae) := by
  refine ⟨?_, ?_, ?_, ?_, ?_⟩
  · simp [monitorGo, hjs, hpe]
  · cases hai : auth i <;> simp [authEvents]
  · intro h
    rw [h]
    rfl
  · intro ae h
    rw [h]
    rfl
  · intro r hm
    cases hai : auth i with
    | none =>
      rw [hai] at hm
      simp [authEvents] at hm
    | some ae =>
      rw [hai] at hm
      simp [authEvents] at hm
      exact ⟨ae, rfl, hm⟩

/-- Witness for C4 at a concrete 401 outcome with a successful
re-authentication. -/
theorem monitor_unauthorized_reauthenticates_witness :
    (JobStatus.zero.isComplete = false) ∧
    ((fun _ : Nat => PollOutcome.mk JobStatus.zero (some Err.unauthorized)) 0).error
      = some Err.unauthorized ∧
    monitorGo (fun _ => PollOutcome.mk JobStatus.zero (some Err.unauthorized))
        (fun _ => none) 1 0 JobStatus.zero
      = MAction.authenticate ::
          (authEvents none ++
            monitorGo (fun _ => PollOutcome.mk JobStatus.zero (some Err.unauthorized))
              (fun _ => none) 0 1 JobStatus.zero)
    ∧ MAction.sleep ∉ MAction.authenticate :: authEvents none := by
  have h := monitor_unauthorized_reauthenticates
    (fun _ => PollOutcome.mk JobStatus.zero (some Err.unauthorized))
    (fun _ => none) 0 0 JobStatus.zero rfl rfl
  exact ⟨rfl, rfl, h.1, h.2.1⟩

end Bulkfhir

namespace Processing

lemma writeSeq_ok {α β : Type} (l : List (SinkModel α β))
    (rw : ResourceWrapperState α β)
    (h : ∀ s ∈ l, s.write rw = Except.ok ()) :
    writeSeq l rw = (l.map fun s => PipeEv.sinkWrite s.id, Except.ok ()) := by
  induction l with
  | nil => rfl
  | cons a rest ih =>
    simp [writeSeq, h a (List.mem_cons_self a rest),
      ih (fun s hs => h s (List.mem_cons_of_mem a hs))]

lemma writeSeq_error {α β : Type} (pre : List (SinkModel α β))
    (sf : SinkModel α β) (post : List (SinkModel α β))
    (rw : ResourceWrapperState α β) (e : String)
    (hpre : ∀ s ∈ pre, s.write rw = Except.ok ())
    (hf : sf.write rw = Except.error e) :
    writeSeq (pre ++ sf :: post) rw
      = ((pre.map fun s => PipeEv.sinkWrite s.id) ++ [PipeEv.sinkWrite sf.id],
         Except.error e) := by
  induction pre with
  | nil => simp [writeSeq, hf]
  | cons a rest ih =>
    simp [writeSeq, hpre a (List.mem_cons_self a rest),
      ih (fun s hs => hpre s (List.mem_cons_of_mem a hs))]

lemma pipelineFunc_thread_ok {α β : Type} (sinks : List (SinkModel α β)) :
    ∀ (procs : List (ProcModel α β)) (rw rwN : ResourceWrapperState α β),
      threadProcs procs rw = Except.ok rwN →
      pipelineFunc procs sinks rw
        = ((procs.map fun p => PipeEv.procCall p.id) ++ (writeToSinks sinks rwN).1,
           (writeToSinks sinks rwN).2) := by
  intro procs
  induction procs with
  | nil =>
    intro rw rwN h
    simp [threadProcs] at h
    subst h
    simp [pipelineFunc]
  | cons a rest ih =>
    intro rw rwN h
    unfold threadProcs at h
    cases ht : a.transform rw with
    | error e =>
      rw [ht] at h
      simp at h
    | ok rw2 =>
      rw [ht] at h
      have hrec := ih rw2 rwN h
      have hstep : pipelineFunc (a :: rest) sinks rw
          = procRun a (pipelineFunc rest sinks) rw := rfl
      rw [hstep]
      unfold procRun
      rw [ht]
      simp [hrec]

/-- Claim C7: for every pipeline, (i) when every processor forwards
successfully, the composed entry point invokes the processors in the
order supplied and then hands the threaded resource to the sink stage;
(ii) the sink stage stabilizes the resource and writes it to every sink
in list order when all writes succeed; (iii) a failing write stops the
sweep at that sink — later sinks are never invoked — and its error is the
result of the whole call. -/
theorem pipeline_process_order {α β : Type} (procs : List (ProcModel α β))
    (sinks : List (SinkModel α β)) :
    (∀ rw rwN, threadProcs procs rw = Except.ok rwN →
      pipelineFunc procs sinks rw
        = ((procs.map fun p => PipeEv.procCall p.id) ++ (writeToSinks sinks rwN).1,
           (writeToSinks sinks rwN).2))
    ∧ (∀ rw, (∀ s ∈ sinks, s.write { rw with doneMutating := true } = Except.ok ()) →
        writeToSinks sinks rw
          = (sinks.map fun s => PipeEv.sinkWrite s.id, Except.ok ()))
    ∧ (∀ rw pre sf post e, sinks = pre ++ sf :: post →
        (∀ s ∈ pre, s.write { rw with doneMutating := true } = Except.ok ()) →
        sf.write { rw with doneMutating := true } = Except.error e →
        writeToSinks sinks rw
          = ((pre.map fun s => PipeEv.sinkWrite s.id) ++ [PipeEv.sinkWrite sf.id],
             Except.error e)) := by
  refine ⟨pipelineFunc_thread_ok sinks procs, ?_, ?_⟩
  · intro rw h
    exact writeSeq_ok sinks _ h
  · intro rw pre sf post e hdec hpre hf
    rw [hdec]
    exact writeSeq_error pre sf post _ e hpre hf

/-- Witness for C7: two forwarding processors and two sinks of which the
second fails; the trace is P1, P2, S1, S2 and the error of S2 is
returned. -/
theorem pipeline_process_order_witness :
    threadProcs
        [ProcModel.mk 1 (fun rw => Except.ok rw) (Except.ok ()),
         ProcModel.mk 2 (fun rw => Except.ok rw) (Except.ok ())]
        (ResourceWrapperState.mk 0 "url" (none : Option Nat) (some "rawbytes") false)
      = Except.ok (ResourceWrapperState.mk 0 "url" none (some "rawbytes") false) ∧
    pipelineFunc
        [ProcModel.mk 1 (fun rw => Except.ok rw) (Except.ok ()),
         ProcModel.mk 2 (fun rw => Except.ok rw) (Except.ok ())]
        [SinkModel.mk 10 (fun _ => Except.ok ()) (Except.ok ()),
         SinkModel.mk 11 (fun _ => Except.error "disk full") (Except.ok ())]
        (ResourceWrapperState.mk 0 "url" (none : Option Nat) (some "rawbytes") false)
      = ([PipeEv.procCall 1, PipeEv.procCall 2, PipeEv.sinkWrite 10,
          PipeEv.sinkWrite 11], Except.error "disk full") := by
  have h := (pipeline_process_order
      [ProcModel.mk 1 (fun rw => Except.ok rw) (Except.ok ()),
       ProcModel.mk 2 (fun rw => Except.ok rw) (Except.ok ())]
      [SinkModel.mk 10 (fun _ => Except.ok ()) (Except.ok ()),
       SinkModel.mk 11 (fun _ => Except.error "disk full") (Except.ok ())]).1
      (ResourceWrapperState.mk 0 "url" (none : Option Nat) (some "rawbytes") false)
      (ResourceWrapperState.mk 0 "url" none (some "rawbytes") false) rfl
  exact ⟨rfl, by rw [h]; rfl⟩

lemma finalizeSeq_ok (l : List (Nat × Except String Unit))
    (h : ∀ x ∈ l, x.2 = Except.ok ()) :
    finalizeSeq l = (l.map fun x => PipeEv.finalized x.1, Except.ok ()) := by
  induction l with
  | nil => rfl
  | cons a rest ih =>
    obtain ⟨i, r⟩ := a
    have ha := h (i, r) (List.mem_cons_self _ _)
    simp only at ha
    simp [finalizeSeq, ha, ih (fun x hx => h x (List.mem_cons_of_mem _ hx))]

lemma finalizeSeq_error (pre : List (Nat × Except String Unit))
    (b : Nat × Except String Unit) (post : List (Nat × Except String Unit))
    (e : String) (hpre : ∀ x ∈ pre, x.2 = Except.ok ())
    (hb : b.2 = Except.error e) :
    finalizeSeq (pre ++ b :: post)
      = ((pre.map fun x => PipeEv.finalized x.1) ++ [PipeEv.finalized b.1],
         Except.error e) := by
  induction pre with
  | nil =>
    obtain ⟨i, r⟩ := b
    simp only at hb
    simp [finalizeSeq, hb]
  | cons a rest ih =>
    obtain ⟨i, r⟩ := a
    have ha := hpre (i, r) (List.mem_cons_self _ _)
    simp only at ha
    simp [finalizeSeq, ha, ih (fun x hx => hpre x (List.mem_cons_of_mem _ hx))]

/-- Claim C8: `Pipeline.Finalize` finalizes every processor in list order
and then every sink in list order; the first error from either phase is
returned and all later finalize calls of the run are skipped — in
particular a processor-finalizer failure prevents every sink finalizer
from running. -/
theorem pipeline_finalize_order {α β : Type} (procs : List (ProcModel α β))
    (sinks : List (SinkModel α β)) :
    ((∀ p ∈ procs, p.fin = Except.ok ()) → (∀ s ∈ sinks, s.fin = Except.ok ()) →
      pipelineFinalize procs sinks
        = ((procs.map fun p => PipeEv.finalized p.id)
            ++ (sinks.map fun s => PipeEv.finalized s.id), Except.ok ()))
    ∧ (∀ ppre pbad ppost e, procs = ppre ++ pbad :: ppost →
        (∀ p ∈ ppre, p.fin = Except.ok ()) → pbad.fin = Except.error e →
        pipelineFinalize procs sinks
          = ((ppre.map fun p => PipeEv.finalized p.id) ++ [PipeEv.finalized pbad.id],
             Except.error e))
    ∧ (∀ spre sbad spost e, (∀ p ∈ procs, p.fin = Except.ok ()) →
        sinks = spre ++ sbad :: spost →
        (∀ s ∈ spre, s.fin = Except.ok ()) → sbad.fin = Except.error e →
        pipelineFinalize procs sinks
          = ((procs.map fun p => PipeEv.finalized p.id)
              ++ ((spre.map fun s => PipeEv.finalized s.id)
                ++ [PipeEv.finalized sbad.id]),
             Except.error e)) := by
  refine ⟨?_, ?_, ?_⟩
  · intro hp hs
    have h1 := finalizeSeq_ok (procs.map fun p => (p.id, p.fin))
      (by intro x hx; obtain ⟨p, hpm, rfl⟩ := List.mem_map.mp hx; exact hp p hpm)
    have h2 := finalizeSeq_ok (sinks.map fun s => (s.id, s.fin))
      (by intro x hx; obtain ⟨q, hqm, rfl⟩ := List.mem_map.mp hx; exact hs q hqm)
    unfold pipelineFinalize
    rw [h1, h2]
    simp only [List.map_map]
    rfl
  · intro ppre pbad ppost e hdec hpre hbad
    have h1 : finalizeSeq (procs.map fun p => (p.id, p.fin))
        = ((ppre.map fun p => PipeEv.finalized p.id) ++ [PipeEv.finalized pbad.id],
           Except.error e) := by
      rw [hdec]
      rw [show ((ppre ++ pbad :: ppost).map fun p => (p.id, p.fin))
          = (ppre.map fun p => (p.id, p.fin))
            ++ (pbad.id, pbad.fin) :: (ppost.map fun p => (p.id, p.fin))
        from by simp]
      rw [finalizeSeq_error (ppre.map fun p => (p.id, p.fin)) (pbad.id, pbad.fin)
        (ppost.map fun p => (p.id, p.fin)) e
        (by intro x hx; obtain ⟨p, hpm, rfl⟩ := List.mem_map.mp hx; exact hpre p hpm)
        hbad]
      simp only [List.map_map]
      rfl
    unfold pipelineFinalize
    rw [h1]
  · intro spre sbad spost e hp hdec hpre hbad
    have h1 := finalizeSeq_ok (procs.map fun p => (p.id, p.fin))
      (by intro x hx; obtain ⟨p, hpm, rfl⟩ := List.mem_map.mp hx; exact hp p hpm)
    have h2 : finalizeSeq (sinks.map fun s => (s.id, s.fin))
        = ((spre.map fun s => PipeEv.finalized s.id) ++ [PipeEv.finalized sbad.id],
           Except.error e) := by
      rw [hdec]
      rw [show ((spre ++ sbad :: spost).map fun s => (s.id, s.fin))
          = (spre.map fun s => (s.id, s.fin))
            ++ (sbad.id, sbad.fin) :: (spost.map fun s => (s.id, s.fin))
        from by simp]
      rw [finalizeSeq_error (spre.map fun s => (s.id, s.fin)) (sbad.id, sbad.fin)
        (spost.map fun s => (s.id, s.fin)) e
        (by intro x hx; obtain ⟨q, hqm, rfl⟩ := List.mem_map.mp hx; exact hpre q hqm)
        hbad]
      simp only [List.map_map]
      rfl
    unfold pipelineFinalize
    rw [h1, h2]
    simp only [List.map_map]
    rfl

/-- Witness for C8: a failing first processor finalizer prevents the sink
finalizer from running. -/
theorem pipeline_finalize_order_witness :
    ([ProcModel.mk 1 (fun (rw : ResourceWrapperState Nat String) => Except.ok rw)
        (Except.error "flush failed"),
      ProcModel.mk 2 (fun rw => Except.ok rw) (Except.ok ())]
      = ([] : List (ProcModel Nat String))
        ++ ProcModel.mk 1 (fun rw => Except.ok rw) (Except.error "flush failed")
          :: [ProcModel.mk 2 (fun rw => Except.ok rw) (Except.ok ())]) ∧
    pipelineFinalize
        [ProcModel.mk 1 (fun (rw : ResourceWrapperState Nat String) => Except.ok rw)
          (Except.error "flush failed"),
         ProcModel.mk 2 (fun rw => Except.ok rw) (Except.ok ())]
        [SinkModel.mk 10 (fun _ => Except.ok ()) (Except.ok ())]
      = ([PipeEv.finalized 1], Except.error "flush failed") := by
  have h := (pipeline_finalize_order
      [ProcModel.mk 1 (fun (rw : ResourceWrapperState Nat String) => Except.ok rw)
        (Except.error "flush failed"),
       ProcModel.mk 2 (fun rw => Except.ok rw) (Except.ok ())]
      [SinkModel.mk 10 (fun _ => Except.ok ()) (Except.ok ())]).2.1
      []
      (ProcModel.mk 1 (fun rw => Except.ok rw) (Except.error "flush failed"))
      [ProcModel.mk 2 (fun rw => Except.ok rw) (Except.ok ())]
      "flush failed" rfl (by intro p hp; simp at hp) rfl
  exact ⟨rfl, by rw [h]; rfl⟩

end Processing

namespace Processing

/-- Claim C9: before stabilization, accessing the structured form parses
it from the cached wire bytes on a cache miss (failing without touching
the caches on malformed input) and invalidates the wire-bytes cache, so a
subsequent wire-form access re-serializes from the structured form instead
of returning stale cached bytes; once stabilized, neither access
invalidates either cache. -/
theorem resourceWrapper_cache_invalidation {α β : Type}
    (unmarshal : Option β → Except String α) (marshal : Option α → Except String β)
    (rw : ResourceWrapperState α β) :
    (∀ p, rw.doneMutating = false → rw.proto = none →
      unmarshal rw.json = Except.ok p →
      rwProto unmarshal rw
        = (Except.ok p, { rw with proto := some p, json := none }))
    ∧ (∀ e, rw.proto = none → unmarshal rw.json = Except.error e →
      rwProto unmarshal rw = (Except.error e, rw))
    ∧ (∀ p, rw.doneMutating = false → rw.proto = none →
      unmarshal rw.json = Except.ok p →
      (rwJSON marshal (rwProto unmarshal rw).2).1 = marshal (some p))
    ∧ (rw.doneMutating = true →
      (rwProto unmarshal rw).2.json = rw.json
      ∧ (rwJSON marshal rw).2.proto = rw.proto
      ∧ (∀ j, rw.json = some j → (rwJSON marshal rw).2.json = some j)) := by
  refine ⟨?_, ?_, ?_, ?_⟩
  · intro p hdm hpr hun
    unfold rwProto
    rw [hpr, hun]
    simp [hdm]
  · intro e hpr hun
    unfold rwProto
    rw [hpr, hun]
  · intro p hdm hpr hun
    have h2 : (rwProto unmarshal rw).2 = { rw with proto := some p, json := none } := by
      unfold rwProto
      rw [hpr, hun]
      simp [hdm]
    rw [h2]
    unfold rwJSON
    simp
    cases hm : marshal (some p) with
    | error e => simp
    | ok j => simp
  · intro hdm
    refine ⟨?_, ?_, ?_⟩
    · unfold rwProto
      cases hpr : rw.proto with
      | none =>
        cases hun : unmarshal rw.json with
        | error e => rfl
        | ok p => simp [hdm]
      | some p => simp [hdm]
    · unfold rwJSON
      cases hj : rw.json with
      | some j => rfl
      | none =>
        cases hm : marshal rw.proto with
        | error e => rfl
        | ok j => rfl
    · intro j hj
      unfold rwJSON
      rw [hj]
      exact hj

/-- Witness for C9 at a concrete wrapper holding wire bytes only, with an
unmarshaller producing 7 and a marshaller producing fresh bytes. -/
theorem resourceWrapper_cache_invalidation_witness :
    ((ResourceWrapperState.mk 0 "url" (none : Option Nat) (some "old") false).doneMutating
      = false) ∧
    ((fun _ : Option String => (Except.ok 7 : Except String Nat))
        (ResourceWrapperState.mk 0 "url" (none : Option Nat) (some "old") false).json
      = Except.ok 7) ∧
    rwProto (fun _ : Option String => (Except.ok 7 : Except String Nat))
        (ResourceWrapperState.mk 0 "url" (none : Option Nat) (some "old") false)
      = (Except.ok 7, ResourceWrapperState.mk 0 "url" (some 7) none false) ∧
    (rwJSON (fun _ : Option Nat => (Except.ok "fresh" : Except String String))
        (rwProto (fun _ : Option String => (Except.ok 7 : Except String Nat))
          (ResourceWrapperState.mk 0 "url" (none : Option Nat) (some "old") false)).2).1
      = (fun _ : Option Nat => (Except.ok "fresh" : Except String String)) (some 7) := by
  have h := resourceWrapper_cache_invalidation
    (fun _ : Option String => (Except.ok 7 : Except String Nat))
    (fun _ : Option Nat => (Except.ok "fresh" : Except String String))
    (ResourceWrapperState.mk 0 "url" (none : Option Nat) (some "old") false)
  exact ⟨rfl, rfl, h.1 7 rfl rfl rfl, h.2.2.1 7 rfl rfl rfl⟩

end Processing
